import Mathlib

/-!
Verification of the patchpanel library: a type-indexed parser registry plus a
tag-lookup/coercion pipeline (parser.go, error.go).

The Go code is shallowly embedded: `reflect.Type` becomes the inductive
`GoType`, `any` values become `GoVal`, Go errors become `GoError`, Go maps
become association lists with first-match lookup, and Go's standard-library
parsing routines (`strconv.Atoi`, `strconv.ParseBool`, `time.ParseDuration`)
are modelled faithfully.  `time.Parse` is kept abstract: the library only
forwards to it, so the whole development is parameterised by a function
`tp : String → String → Option Int` giving, for a layout string and an input
string, the parsed instant (as an abstract integer) or `none` on parse error.
-/

namespace Patchpanel

/-- Go `any` values that flow through the pipeline.  `vDur` is `time.Duration`
(int64 nanoseconds); `vTime` is a `time.Time`, represented abstractly by an
integer instant whose zero value (`time.Time\x7b\x7d`) is `0`. -/
inductive GoVal where
  | vNil
  | vStr (s : String)
  | vBool (b : Bool)
  | vInt (n : Int)
  | vDur (ns : Int)
  | vTime (t : Int)
  deriving DecidableEq, Repr

/-- The error taxonomy of error.go plus `errors.New`/`fmt.Errorf` generic
errors (each carries only a message string). -/
inductive GoError where
  | noField (msg : String)
  | noValue (msg : String)
  | unhandledParserType (msg : String)
  | errorsNew (msg : String)
  deriving DecidableEq, Repr

mutual

/-- `reflect.Type`.  `tNamed` carries the type's printed name and the string
form of its `reflect.Kind` (for non-struct user types such as `time.Month`);
`tStruct` carries the struct's name and its fields.  Equality of `GoType`
values models `reflect.Type` identity. -/
inductive GoType where
  | tString
  | tBool
  | tInt
  | tDuration
  | tTime
  | tNamed (name : String) (kindStr : String)
  | tStruct (name : String) (fields : GoFields)

/-- The field list of a struct type: each field has a name, a declared type,
and a tag (the tag blob modelled as a name→value map, which is what
`reflect.StructTag.Get` exposes). -/
inductive GoFields where
  | nil
  | cons (name : String) (type : GoType) (tag : List (String × String)) (rest : GoFields)

end

deriving instance DecidableEq for GoType
deriving instance DecidableEq for GoFields
deriving instance Repr for GoType
deriving instance Repr for GoFields

/-- The printed form of a `reflect.Type` (what `%v` produces). -/
def goTypeString : GoType → String
  | .tString => "string"
  | .tBool => "bool"
  | .tInt => "int"
  | .tDuration => "time.Duration"
  | .tTime => "time.Time"
  | .tNamed n _ => n
  | .tStruct n _ => n

/-- The string form of a type's `reflect.Kind`.  `time.Time` is itself a
struct type, so its kind is `struct`. -/
def goKindString : GoType → String
  | .tString => "string"
  | .tBool => "bool"
  | .tInt => "int"
  | .tDuration => "int64"
  | .tTime => "struct"
  | .tNamed _ k => k
  | .tStruct _ _ => "struct"

/-- `t.Kind() == reflect.Struct`. -/
def isStructKind : GoType → Bool
  | .tTime => true
  | .tStruct _ _ => true
  | _ => false

/-- `reflect.TypeOf(v)` for `v : string` — always the string type.  This is
exactly what coerce's error path computes (parser.go line 182). -/
def reflectTypeOfStr (_ : String) : GoType := .tString

/-- `reflect.StructField` as used by this library: name, declared type and tag
blob.  The zero `reflect.StructField` has an empty name, a nil type and an
empty tag, hence `type` is an `Option`. -/
structure StructField where
  name : String
  type : Option GoType
  tag : List (String × String)
  deriving DecidableEq, Repr

/-- `reflect.StructTag.Get`: the value for a key, or `""` when absent. -/
def tagGet (tag : List (String × String)) (key : String) : String :=
  match tag.find? (fun p => p.1 == key) with
  | some p => p.2
  | none => ""

/-- Association-list lookup of a tag key (present/absent distinction). -/
def tagLookup (key : String) (tag : List (String × String)) : Option String :=
  (tag.find? (fun p => p.1 == key)).map (·.2)

/-- First field of the list with the given name. -/
def GoFields.findByName : GoFields → String → Option (String × GoType × List (String × String))
  | .nil, _ => none
  | .cons n t tag rest, name => if n == name then some (n, t, tag) else rest.findByName name

/-- The internal fields of `time.Time` in the Go 1.x runtime (unexported,
untagged); `FieldByName` does report unexported fields. -/
def timeTimeFields : GoFields :=
  .cons "wall" (.tNamed "uint64" "uint64") []
    (.cons "ext" (.tNamed "int64" "int64") []
      (.cons "loc" (.tNamed "*time.Location" "ptr") [] .nil))

/-- `t.FieldByName(name)` on the flat struct types of this model.  On
`time.Time` (a struct kind) the three unexported fields of the Go 1.x
representation are visible; user struct types search their field list. -/
def fieldByName : GoType → String → Option (String × GoType × List (String × String))
  | .tStruct _ fields, name => fields.findByName name
  | .tTime, name => timeTimeFields.findByName name
  | _, _ => none

/-- Parser-hint table: `map[string]any`. -/
abbrev Hints := List (String × GoVal)

/-- Go map read `m[k]` with its ok flag collapsed into `Option`. -/
def hintsLookup (key : String) (m : Hints) : Option GoVal :=
  (m.find? (fun p => p.1 == key)).map (·.2)

/-- Go map assignment `m[k] = v`: one binding per key. -/
def hintsInsert (key : String) (v : GoVal) (m : Hints) : Hints :=
  (key, v) :: m.filter (fun p => p.1 != key)

/-- Go `unicode.IsSpace`: the White_Space code points. -/
def isSpaceGo (c : Char) : Bool :=
  c == ' ' || c == '\t' || c == '\n' || (11 ≤ c.toNat && c.toNat ≤ 13) ||
  c.toNat == 0x85 || c.toNat == 0xA0 || c.toNat == 0x1680 ||
  (0x2000 ≤ c.toNat && c.toNat ≤ 0x200A) || c.toNat == 0x2028 || c.toNat == 0x2029 ||
  c.toNat == 0x202F || c.toNat == 0x205F || c.toNat == 0x3000

/-- Drop leading White_Space characters. -/
def trimLeftChars (l : List Char) : List Char := l.dropWhile isSpaceGo

/-- Drop trailing White_Space characters. -/
def trimRightChars (l : List Char) : List Char := (l.reverse.dropWhile isSpaceGo).reverse

/-- Go `strings.TrimSpace`. -/
def trimSpace (s : String) : String := ⟨trimRightChars (trimLeftChars s.data)⟩

/-- Go `math.MaxInt64`. -/
def maxInt64 : Nat := 2 ^ 63 - 1

/-- The numeric value of a digit string. -/
def digitsToNat (l : List Char) : Nat := l.foldl (fun n c => n * 10 + (c.toNat - '0'.toNat)) 0

/-- The error of `strconv.Atoi` on malformed input. -/
def atoiErrSyntax (s : String) : GoError :=
  .errorsNew ("strconv.Atoi: parsing \"" ++ s ++ "\": invalid syntax")

/-- The error of `strconv.Atoi` on out-of-range input. -/
def atoiErrRange (s : String) : GoError :=
  .errorsNew ("strconv.Atoi: parsing \"" ++ s ++ "\": value out of range")

/-- Model of Go `strconv.Atoi`: optional sign then a nonempty digit run;
returns `0` with a syntax error on malformed input (the empty string
included) and the clamped int64 bound with a range error on overflow. -/
def atoi (s : String) : Int × Option GoError :=
  let (neg, ds) : Bool × List Char :=
    match s.data with
    | '-' :: rest => (true, rest)
    | '+' :: rest => (false, rest)
    | rest => (false, rest)
  if ds.isEmpty || !ds.all Char.isDigit then (0, some (atoiErrSyntax s))
  else
    let n := digitsToNat ds
    if neg then
      if n ≤ 2 ^ 63 then (-(n : Int), none) else (-((2 ^ 63 : Nat) : Int), some (atoiErrRange s))
    else
      if n ≤ maxInt64 then ((n : Int), none) else ((maxInt64 : Int), some (atoiErrRange s))

/-- Model of Go `strconv.ParseBool`: accepts the canonical tokens, returns
`false` with a syntax error otherwise. -/
def parseBool (s : String) : Bool × Option GoError :=
  if s == "1" || s == "t" || s == "T" || s == "true" || s == "TRUE" || s == "True" then
    (true, none)
  else if s == "0" || s == "f" || s == "F" || s == "false" || s == "FALSE" || s == "False" then
    (false, none)
  else
    (false, some (.errorsNew ("strconv.ParseBool: parsing \"" ++ s ++ "\": invalid syntax")))

/-- Error for a malformed or overflowing duration string. -/
def durErrInvalid (orig : String) : GoError :=
  .errorsNew ("time: invalid duration \"" ++ orig ++ "\"")

/-- Error for a duration number with no unit. -/
def durErrMissingUnit (orig : String) : GoError :=
  .errorsNew ("time: missing unit in duration \"" ++ orig ++ "\"")

/-- Error for a duration with an unrecognized unit. -/
def durErrUnknownUnit (u orig : String) : GoError :=
  .errorsNew ("time: unknown unit \"" ++ u ++ "\" in duration \"" ++ orig ++ "\"")

/-- Go's duration unit map: unit suffix → nanoseconds. -/
def durUnitMap : List (String × Nat) :=
  [("ns", 1), ("us", 1000), ("µs", 1000), ("μs", 1000), ("ms", 1000000),
   ("s", 1000000000), ("m", 60000000000), ("h", 3600000000000)]

/-- Lookup in the duration unit map. -/
def unitLookup (key : String) : Option Nat :=
  (durUnitMap.find? (fun p => p.1 == key)).map (·.2)

/-- Go's `leadingInt`: consume leading digits into an accumulator, reporting
overflow past `2^63` (third component). -/
def leadingInt : List Char → Nat → Nat × List Char × Bool
  | [], x => (x, [], false)
  | c :: rest, x =>
    if c.isDigit then
      if x > 2 ^ 63 / 10 then (0, c :: rest, true)
      else
        let x2 := x * 10 + (c.toNat - '0'.toNat)
        if x2 > 2 ^ 63 then (0, c :: rest, true)
        else leadingInt rest x2
    else (x, c :: rest, false)

/-- Go's `leadingFraction`: consume digits after the decimal point into a
value/scale pair, silently dropping digits once the value would overflow. -/
def leadingFraction : List Char → Nat → Nat → Bool → Nat × Nat × List Char
  | [], f, scale, _ => (f, scale, [])
  | c :: rest, f, scale, overflow =>
    if c.isDigit then
      if overflow then leadingFraction rest f scale overflow
      else if f > maxInt64 / 10 then leadingFraction rest f scale true
      else
        let f2 := f * 10 + (c.toNat - '0'.toNat)
        if f2 > 2 ^ 63 then leadingFraction rest f scale true
        else leadingFraction rest f2 (scale * 10) false
    else (f, scale, c :: rest)

/-- The main loop of Go `time.ParseDuration`, consuming number+unit groups.
Each pass consumes at least one character, so fuel `length + 1` never runs
out; the fraction contribution is computed with exact integer arithmetic
where Go uses float64 (equal on all inputs the claims touch; no claim
involves fractional durations). -/
def parseDurationLoop (orig : String) : Nat → List Char → Nat → Nat × Option GoError
  | _, [], d => (d, none)
  | 0, _ :: _, _ => (0, some (durErrInvalid orig))
  | fuel + 1, c0 :: s0, d =>
    if !(c0 == '.' || c0.isDigit) then (0, some (durErrInvalid orig))
    else
      let pl := (c0 :: s0).length
      let (v, s1, errLI) := leadingInt (c0 :: s0) 0
      if errLI then (0, some (durErrInvalid orig))
      else
        let pre := pl != s1.length
        let (f, scale, s2, post) :=
          match s1 with
          | '.' :: rest =>
            let pl2 := rest.length
            let (f, scale, s2) := leadingFraction rest 0 1 false
            (f, scale, s2, pl2 != s2.length)
          | _ => (0, 1, s1, false)
        if !pre && !post then (0, some (durErrInvalid orig))
        else
          let (uchars, s3) := s2.span (fun c => !(c == '.' || c.isDigit))
          if uchars.isEmpty then (0, some (durErrMissingUnit orig))
          else
            match unitLookup (String.mk uchars) with
            | none => (0, some (durErrUnknownUnit (String.mk uchars) orig))
            | some unit =>
              if v > 2 ^ 63 / unit then (0, some (durErrInvalid orig))
              else
                let v1 := v * unit
                let v2 := if f > 0 then v1 + f * unit / scale else v1
                if v2 > 2 ^ 63 then (0, some (durErrInvalid orig))
                else
                  let d2 := d + v2
                  if d2 > 2 ^ 63 then (0, some (durErrInvalid orig))
                  else parseDurationLoop orig fuel s3 d2

/-- Model of Go `time.ParseDuration`: optional sign, the special string "0",
then one or more number+unit groups; the result is int64 nanoseconds. -/
def parseDuration (s : String) : Int × Option GoError :=
  let orig := s
  let (neg, s1) : Bool × List Char :=
    match s.data with
    | '-' :: rest => (true, rest)
    | '+' :: rest => (false, rest)
    | rest => (false, rest)
  if s1 == ['0'] then (0, none)
  else if s1.isEmpty then (0, some (durErrInvalid orig))
  else
    let (d, err) := parseDurationLoop orig (s1.length + 1) s1 0
    match err with
    | some e => (0, some e)
    | none =>
      if neg then (-(d : Int), none)
      else if d > maxInt64 then (0, some (durErrInvalid orig))
      else ((d : Int), none)

/-- Go `time.RFC3339`. -/
def goRFC3339 : String := "2006-01-02T15:04:05Z07:00"

/-- parser.go's `timeFormatMap`: recognized layout names → `time` package
layout constants (the apostrophe in `time.Layout` written as `\x27`). -/
def timeFormatMap : List (String × String) :=
  [("Layout", "01/02 03:04:05PM \x2706 -0700"),
   ("ANSIC", "Mon Jan _2 15:04:05 2006"),
   ("UnixDate", "Mon Jan _2 15:04:05 MST 2006"),
   ("RubyDate", "Mon Jan 02 15:04:05 -0700 2006"),
   ("RFC822", "02 Jan 06 15:04 MST"),
   ("RFC822Z", "02 Jan 06 15:04 -0700"),
   ("RFC850", "Monday, 02-Jan-06 15:04:05 MST"),
   ("RFC1123", "Mon, 02 Jan 2006 15:04:05 MST"),
   ("RFC1123Z", "Mon, 02 Jan 2006 15:04:05 -0700"),
   ("RFC3339", goRFC3339),
   ("RFC3339Nano", "2006-01-02T15:04:05.999999999Z07:00"),
   ("Kitchen", "3:04PM"),
   ("Stamp", "Jan _2 15:04:05"),
   ("StampMilli", "Jan _2 15:04:05.000"),
   ("StampMicro", "Jan _2 15:04:05.000000"),
   ("StampNano", "Jan _2 15:04:05.000000000"),
   ("DateTime", "2006-01-02 15:04:05"),
   ("DateOnly", "2006-01-02"),
   ("TimeOnly", "15:04:05")]

/-- The message of the `*time.ParseError` returned by `time.Parse` (modelled:
only the fact that an error occurs matters to the library, never its text). -/
def timeParseErrMsg (layout value : String) : String :=
  "parsing time \"" ++ value ++ "\" as \"" ++ layout ++ "\": cannot parse"

/-- A registered parser function: `(value string, hints map) → (any, error)`
(the `Parser` type of parser.go). -/
abbrev GoParser := String → Hints → GoVal × Option GoError

/-- The `PatchPanel` registry: two separator strings plus the Type-Key →
Parser-Function map.  The mutex is a no-op in this sequential model. -/
structure PatchPanel where
  tokenSeparator : String
  keyValueSeparator : String
  parsers : List (GoType × GoParser)

/-- Go map read `pc.parsers[toType]`. -/
def parsersLookup (key : GoType) (m : List (GoType × GoParser)) : Option GoParser :=
  (m.find? (fun p => p.1 == key)).map (·.2)

/-- Go map assignment `pc.parsers[typ] = parser`: one binding per key. -/
def parsersInsert (key : GoType) (v : GoParser) (m : List (GoType × GoParser)) :
    List (GoType × GoParser) :=
  (key, v) :: m.filter (fun p => p.1 != key)

/-- parser.go's `KeyValueSeparator` constant. -/
def KeyValueSeparator : String := ":"

/-- parser.go's `TokenSeparator` constant. -/
def TokenSeparator : String := "路"

/-- The seeded `str` parser: returns the raw string unchanged. -/
def strParserFn : GoParser := fun v _ => (.vStr v, none)

/-- The seeded `bool` parser: `strconv.ParseBool(v)`. -/
def boolParserFn : GoParser := fun v _ =>
  let (b, e) := parseBool v
  (.vBool b, e)

/-- The seeded `int` parser: `strconv.Atoi(v)`. -/
def intParserFn : GoParser := fun v _ =>
  let (n, e) := atoi v
  (.vInt n, e)

/-- The seeded `time.Duration` parser: `time.ParseDuration(v)`, with the zero
duration explicitly returned on error. -/
def durationParserFn : GoParser := fun v _ =>
  let (d, e) := parseDuration v
  match e with
  | some err => (.vDur 0, some err)
  | none => (.vDur d, none)

/-- The seeded `time.Time` parser: look for a `timeFormat` hint; without one,
parse as RFC 3339; with one, it must be a string naming an entry of
`timeFormatMap`; every failure returns the zero `time.Time`. -/
def timeParserFn (tp : String → String → Option Int) : GoParser := fun v parserHints =>
  match hintsLookup "timeFormat" parserHints with
  | none =>
    match tp goRFC3339 v with
    | some t => (.vTime t, none)
    | none => (.vTime 0, some (.errorsNew (timeParseErrMsg goRFC3339 v)))
  | some timeFormatHint =>
    match timeFormatHint with
    | .vStr tFormatHintStr =>
      match tagLookup tFormatHintStr timeFormatMap with
      | none => (.vTime 0, some (.errorsNew "unknown timeFormat provided"))
      | some timeFormatString =>
        match tp timeFormatString v with
        | some t => (.vTime t, none)
        | none => (.vTime 0, some (.errorsNew (timeParseErrMsg timeFormatString v)))
    | _ => (.vTime 0, some (.errorsNew "timeFormat parser hint must be a string"))

/-- `NewPatchPanel`, seeding the five built-in parsers.  `tp` is the abstract
model of `time.Parse` (layout → input → parsed instant or `none`). -/
def NewPatchPanel (tp : String → String → Option Int)
    (tokenSeparator keyValueSeparator : String) : PatchPanel :=
  { tokenSeparator := tokenSeparator
    keyValueSeparator := keyValueSeparator
    parsers :=
      [(.tString, strParserFn),
       (.tBool, boolParserFn),
       (.tInt, intParserFn),
       (.tDuration, durationParserFn),
       (.tTime, timeParserFn tp)] }

/-- `AddParser`: adds a parser configuration; overwriting is intentional. -/
def AddParser (pc : PatchPanel) (typ : GoType) (parserFn : GoParser) : PatchPanel :=
  { pc with parsers := parsersInsert typ parserFn pc.parsers }

/-- `coerce`: looks the declared type up in the registry and runs its parser.
The Unhandled-Type error message prints `reflect.TypeOf(v)` — the type of the
raw *string* argument — exactly as parser.go line 182 does.  The receiver is
threaded through unchanged: the body only reads it. -/
def coerce (pc : PatchPanel) (v : String) (toType : GoType) (parserHints : Hints) :
    (GoVal × Option GoError) × PatchPanel :=
  ((match parsersLookup toType pc.parsers with
    | none =>
      (.vNil, some (.unhandledParserType
        ("unknown type for parser: " ++ goTypeString (reflectTypeOfStr v))))
    | some parserFunc => parserFunc v parserHints), pc)

/-- `parseHints`: build the hint table off a field's tag (the only part of
the `StructField` the Go function reads).  The Go code trims twice. -/
def parseHints (sFTag : List (String × String)) (hints : List String) : Hints :=
  hints.foldl (fun table hintTag =>
    hintsInsert hintTag (.vStr (trimSpace (trimSpace (tagGet sFTag hintTag)))) table) []

/-- The zero `reflect.StructField`. -/
def zeroStructField : StructField := { name := "", type := none, tag := [] }

/-- `GetFieldTag`: guard nil and non-struct types, locate the field, coerce
its tag value; on coercion failure return a populated descriptor and the
partial value alongside the error. -/
def GetFieldTag (pc : PatchPanel) (fieldName tagName : String) (t : Option GoType)
    (parserHints : List String) : (StructField × GoVal × Option GoError) × PatchPanel :=
  ((match t with
    | none => (zeroStructField, .vNil, some (.errorsNew "nil type provided"))
    | some ty =>
      if !isStructKind ty then
        (zeroStructField, .vNil,
          some (.errorsNew ("expected struct type, got " ++ goKindString ty)))
      else
        match fieldByName ty fieldName with
        | none => (zeroStructField, .vNil, some (.noField ("no such field name: " ++ fieldName)))
        | some (sFName, sFType, sFTag) =>
          let (val, err) := (coerce pc (tagGet sFTag tagName) sFType (parseHints sFTag parserHints)).1
          match err with
          | some e => ({ name := fieldName, type := some sFType, tag := sFTag }, val, some e)
          | none => ({ name := sFName, type := some sFType, tag := sFTag }, val, none)), pc)

/-- `GetDefault`: `GetFieldTag` at tag name "default", turning an empty
resulting value into the distinguished `NoValueError`. -/
def GetDefault (pc : PatchPanel) (fieldName : String) (t : Option GoType)
    (parserHints : List String) : (GoVal × Option GoError) × PatchPanel :=
  ((match (GetFieldTag pc fieldName "default" t parserHints).1 with
    | (_, fieldValue, err) =>
      match err with
      | some e => (.vNil, some e)
      | none =>
        if fieldValue == .vStr "" then (.vNil, some (.noValue fieldName))
        else (fieldValue, none)), pc)

/-- Looking a key up right after inserting it yields the inserted parser. -/
theorem parsersLookup_insert_self (k : GoType) (v : GoParser) (m : List (GoType × GoParser)) :
    parsersLookup k (parsersInsert k v m) = some v := by
  simp [parsersLookup, parsersInsert]

/-- `find?` ignores a `filter` that only removes bindings of a different key. -/
theorem find?_filter_ne (k j : String) (m : Hints) (h : ¬ j = k) :
    (m.filter (fun p => p.1 != j)).find? (fun p => p.1 == k)
      = m.find? (fun p => p.1 == k) := by
  induction m with
  | nil => rfl
  | cons p rest ih =>
    by_cases hp : p.1 = k
    · have h1 : (p.1 != j) = true := by
        simp only [bne_iff_ne, ne_eq, hp]
        exact fun hh => h hh.symm
      have h2 : (p.1 == k) = true := by simp [hp]
      simp [List.filter_cons, h1, List.find?_cons, h2]
    · have h2 : (p.1 == k) = false := by simp [hp]
      by_cases hq : p.1 = j
      · have h1 : (p.1 != j) = false := by simp [hq]
        simp [List.filter_cons, h1, List.find?_cons, h2, ih]
      · have h1 : (p.1 != j) = true := by simp [hq]
        simp [List.filter_cons, h1, List.find?_cons, h2, ih]

/-- Hint lookup after inserting the same key. -/
theorem hintsLookup_insert_self (k : String) (v : GoVal) (m : Hints) :
    hintsLookup k (hintsInsert k v m) = some v := by
  simp [hintsLookup, hintsInsert]

/-- Hint lookup after inserting a different key. -/
theorem hintsLookup_insert_ne (k j : String) (v : GoVal) (m : Hints) (h : ¬ j = k) :
    hintsLookup k (hintsInsert j v m) = hintsLookup k m := by
  unfold hintsLookup hintsInsert
  have hj : ((j, v).1 == k) = false := by simp [h]
  rw [List.find?_cons, hj, find?_filter_ne k j m h]

/-- Hint lookup after the `parseHints` fold: present keys map to the trimmed
tag value, others fall through to the accumulator. -/
theorem parseHints_lookup_mem (tag : List (String × String)) (k : String) :
    ∀ (hints : List String) (acc : Hints),
      hintsLookup k (hints.foldl (fun table hintTag =>
          hintsInsert hintTag (.vStr (trimSpace (trimSpace (tagGet tag hintTag)))) table) acc)
        = if k ∈ hints then some (.vStr (trimSpace (trimSpace (tagGet tag k))))
          else hintsLookup k acc := by
  intro hints
  induction hints with
  | nil => intro acc; simp
  | cons h t ih =>
    intro acc
    rw [List.foldl_cons, ih]
    by_cases hk : k ∈ t
    · simp [hk]
    · by_cases hkh : k = h
      · subst hkh
        simp [hk, hintsLookup_insert_self]
      · have hne : ¬ h = k := fun hh => hkh hh.symm
        simp [hk, hkh, hintsLookup_insert_ne k h _ acc hne]

/-- Hint lookup of any requested hint-tag name. -/
theorem hintsLookup_parseHints (tag : List (String × String)) (hints : List String) (k : String)
    (hk : k ∈ hints) :
    hintsLookup k (parseHints tag hints)
      = some (.vStr (trimSpace (trimSpace (tagGet tag k)))) := by
  unfold parseHints
  rw [parseHints_lookup_mem, if_pos hk]

/-- An absent tag key reads as the empty string. -/
theorem tagGet_eq_empty_of_none (tag : List (String × String)) (k : String)
    (h : tagLookup k tag = none) : tagGet tag k = "" := by
  unfold tagLookup at h
  unfold tagGet
  cases hf : tag.find? (fun p => p.1 == k) with
  | none => rfl
  | some p => rw [hf] at h; simp at h

/-- `trimRightChars` is Mathlib's `List.rdropWhile`. -/
theorem trimRightChars_eq_rdropWhile (l : List Char) :
    trimRightChars l = l.rdropWhile isSpaceGo := rfl

/-- After a left trim, a right trim exposes no new leading whitespace. -/
theorem dropWhile_trimRightChars_dropWhile (l : List Char) :
    (trimRightChars (l.dropWhile isSpaceGo)).dropWhile isSpaceGo
      = trimRightChars (l.dropWhile isSpaceGo) := by
  rw [trimRightChars_eq_rdropWhile]
  rw [List.dropWhile_eq_self_iff]
  intro hl hp
  have hpre : (l.dropWhile isSpaceGo).rdropWhile isSpaceGo <+: l.dropWhile isSpaceGo :=
    List.rdropWhile_prefix _ _
  have hlen : 0 < (l.dropWhile isSpaceGo).length := lt_of_lt_of_le hl hpre.length_le
  have hget : ((l.dropWhile isSpaceGo).rdropWhile isSpaceGo).get ⟨0, hl⟩
      = (l.dropWhile isSpaceGo).get ⟨0, hlen⟩ := by
    simpa using hpre.getElem hl
  rw [hget] at hp
  exact List.dropWhile_get_zero_not isSpaceGo l hlen hp

/-- `strings.TrimSpace` is idempotent. -/
theorem trimSpace_idem (s : String) : trimSpace (trimSpace s) = trimSpace s := by
  show String.mk (trimRightChars ((trimRightChars (s.data.dropWhile isSpaceGo)).dropWhile isSpaceGo))
      = String.mk (trimRightChars (s.data.dropWhile isSpaceGo))
  rw [dropWhile_trimRightChars_dropWhile]
  rw [trimRightChars_eq_rdropWhile, trimRightChars_eq_rdropWhile, List.rdropWhile_idempotent]

/-- Every value the `parseHints` fold stores is a trimmed string. -/
theorem parseHints_mem_trimmed (tag : List (String × String)) :
    ∀ (hints : List String) (acc : Hints),
      (∀ q ∈ acc, ∃ s, q.2 = GoVal.vStr s ∧ trimSpace s = s) →
      ∀ q ∈ hints.foldl (fun table hintTag =>
          hintsInsert hintTag (.vStr (trimSpace (trimSpace (tagGet tag hintTag)))) table) acc,
        ∃ s, q.2 = GoVal.vStr s ∧ trimSpace s = s := by
  intro hints
  induction hints with
  | nil => intro acc hacc; simpa using hacc
  | cons h t ih =>
    intro acc hacc
    rw [List.foldl_cons]
    apply ih
    intro q hq
    rcases List.mem_cons.mp hq with hq1 | hq2
    · refine ⟨trimSpace (trimSpace (tagGet tag h)), ?_, trimSpace_idem _⟩
      rw [hq1]
    · exact hacc q (List.mem_of_mem_filter hq2)

/-- C2: `coerce` on an unregistered Type Key does return a nil value and an
Unhandled-Type error, but the message names the type of the raw string
argument (`reflect.TypeOf(v)`, always `string`), not the field's declared
type: at Type Key `time.Month` the message reads "unknown type for parser:
string" rather than naming `time.Month`, contradicting the claim. -/
theorem coerce_unhandled_names_string_type :
    (coerce (NewPatchPanel (fun _ _ => none) TokenSeparator KeyValueSeparator) "11"
      (.tNamed "time.Month" "int") []).1
      = (.vNil, some (.unhandledParserType "unknown type for parser: string"))
    ∧ (coerce (NewPatchPanel (fun _ _ => none) TokenSeparator KeyValueSeparator) "11"
        (.tNamed "time.Month" "int") []).1
      ≠ (.vNil, some (.unhandledParserType
          ("unknown type for parser: " ++ goTypeString (.tNamed "time.Month" "int")))) := by
  decide

/-- C4: `GetFieldTag` on a nil struct type fails with the "nil type" error,
and on any non-struct-shaped type fails with the "expected struct type"
error naming the offending kind; both paths return a normal error value
(the model functions are total, mirroring the explicit guards that replace
the reflect panic). -/
theorem getFieldTag_nil_and_nonstruct_guards (pc : PatchPanel)
    (fieldName tagName : String) (hintNames : List String) (ty : GoType)
    (hty : isStructKind ty = false) :
    (GetFieldTag pc fieldName tagName none hintNames).1
      = (zeroStructField, .vNil, some (.errorsNew "nil type provided"))
    ∧ (GetFieldTag pc fieldName tagName (some ty) hintNames).1
      = (zeroStructField, .vNil,
         some (.errorsNew ("expected struct type, got " ++ goKindString ty))) := by
  constructor
  · rfl
  · simp [GetFieldTag, hty]

/-- Witness for C4 at a concrete non-struct type (`time.Month`, kind int). -/
theorem getFieldTag_nil_and_nonstruct_guards_witness :
    (GetFieldTag (NewPatchPanel (fun _ _ => none) TokenSeparator KeyValueSeparator)
        "okay" ":)" none []).1
      = (zeroStructField, .vNil, some (.errorsNew "nil type provided"))
    ∧ (GetFieldTag (NewPatchPanel (fun _ _ => none) TokenSeparator KeyValueSeparator)
        "okay" ":)" (some (.tNamed "time.Month" "int")) []).1
      = (zeroStructField, .vNil, some (.errorsNew "expected struct type, got int")) :=
  getFieldTag_nil_and_nonstruct_guards
    (NewPatchPanel (fun _ _ => none) TokenSeparator KeyValueSeparator)
    "okay" ":)" [] (.tNamed "time.Month" "int") (by decide)

/-- C5: registering a parser under any Type Key (a seeded built-in key
included) and then coercing with that key invokes the newly registered
function; a second registration for the same key silently replaces the
first (last-write-wins). -/
theorem addParser_last_write_wins (pc : PatchPanel) (T : GoType) (p q : GoParser)
    (v : String) (hm : Hints) :
    ((coerce (AddParser pc T p) v T hm).1 = p v hm)
    ∧ ((coerce (AddParser (AddParser pc T q) T p) v T hm).1 = p v hm) := by
  constructor <;> simp [coerce, AddParser, parsersLookup_insert_self]

/-- C6: on a freshly constructed registry, integer coercion of "1357" yields
1357 and duration coercion of "5m" yields 300 seconds (in nanoseconds). -/
theorem builtin_int_and_duration_coercion
    (tp : String → String → Option Int) (tok kv : String) :
    (coerce (NewPatchPanel tp tok kv) "1357" .tInt []).1 = (.vInt 1357, none)
    ∧ (coerce (NewPatchPanel tp tok kv) "5m" .tDuration []).1
      = (.vDur (300 * 1000000000), none) := by
  constructor <;> rfl

/-- C10: `coerce`, `GetFieldTag` and `GetDefault` leave the registry exactly
as they found it (the threaded state is returned unchanged), while
`AddParser` keeps the two separator strings and updates only the parser
mapping, whose new binding is the registered function. -/
theorem registry_frame_conditions (pc : PatchPanel) (v : String) (T : GoType) (hm : Hints)
    (fieldName tagName : String) (t : Option GoType) (hintNames : List String) (p : GoParser) :
    (coerce pc v T hm).2 = pc
    ∧ (GetFieldTag pc fieldName tagName t hintNames).2 = pc
    ∧ (GetDefault pc fieldName t hintNames).2 = pc
    ∧ (AddParser pc T p).tokenSeparator = pc.tokenSeparator
    ∧ (AddParser pc T p).keyValueSeparator = pc.keyValueSeparator
    ∧ parsersLookup T (AddParser pc T p).parsers = some p := by
  exact ⟨rfl, rfl, rfl, rfl, rfl, parsersLookup_insert_self T p pc.parsers⟩

/-- C1 counterexample: on an integer-typed field with no default tag,
`GetDefault` attempts coercion of the empty string first, so it fails with
the `strconv.Atoi` syntax error, not with the distinguished No-Value
error. -/
theorem getDefault_int_empty_counterexample :
    (GetDefault (NewPatchPanel (fun _ _ => none) TokenSeparator KeyValueSeparator) "N"
      (some (.tStruct "S" (.cons "N" .tInt [] .nil))) []).1
      = (.vNil, some (.errorsNew "strconv.Atoi: parsing \"\": invalid syntax"))
    ∧ (GetDefault (NewPatchPanel (fun _ _ => none) TokenSeparator KeyValueSeparator) "N"
        (some (.tStruct "S" (.cons "N" .tInt [] .nil))) []).1.2
      ≠ some (.noValue "N") := by
  decide

/-- C1 (amended): on a fresh registry, `GetDefault` on a field whose default
tag is absent or explicitly empty fails with the distinguished No-Value
error when the field's declared type is the string type (whose seeded
parser maps the empty string to itself); for declared types whose parser
rejects the empty string — integer, duration, boolean — the coercion error
is returned instead. -/
theorem getDefault_noValue_string_field
    (tp : String → String → Option Int) (tok kv sname fname : String)
    (fields : GoFields) (fTag : List (String × String)) (hintNames : List String)
    (hfield : fieldByName (.tStruct sname fields) fname = some (fname, .tString, fTag))
    (htag : tagGet fTag "default" = "") :
    (GetDefault (NewPatchPanel tp tok kv) fname (some (.tStruct sname fields)) hintNames).1
      = (.vNil, some (.noValue fname)) := by
  have hco : (coerce (NewPatchPanel tp tok kv) (tagGet fTag "default") .tString
      (parseHints fTag hintNames)).1 = (.vStr "", none) := by
    rw [htag]; rfl
  simp [GetDefault, GetFieldTag, isStructKind, hfield, hco]

/-- Witness for the amended C1: a string field carrying only a `friendly`
tag yields No-Value. -/
theorem getDefault_noValue_string_field_witness :
    (GetDefault (NewPatchPanel (fun _ _ => none) TokenSeparator KeyValueSeparator) "Greeting"
      (some (.tStruct "TestStruct"
        (.cons "Greeting" .tString [("friendly", "howdy")] .nil))) []).1
      = (.vNil, some (.noValue "Greeting")) :=
  getDefault_noValue_string_field (fun _ _ => none) TokenSeparator KeyValueSeparator
    "TestStruct" "Greeting" (.cons "Greeting" .tString [("friendly", "howdy")] .nil)
    [("friendly", "howdy")] [] (by decide) (by decide)

/-- C3: when coercion of a field's tag value fails, `GetFieldTag` returns the
error together with a descriptor populated with the field's name, declared
type and raw tag blob, and with exactly the partial value the parser
produced. -/
theorem getFieldTag_error_populates_descriptor (pc : PatchPanel)
    (fieldName tagName sname : String) (fields : GoFields)
    (fType : GoType) (fTag : List (String × String)) (hintNames : List String) (e : GoError)
    (hfield : fieldByName (.tStruct sname fields) fieldName = some (fieldName, fType, fTag))
    (herr : ((coerce pc (tagGet fTag tagName) fType (parseHints fTag hintNames)).1).2 = some e) :
    (GetFieldTag pc fieldName tagName (some (.tStruct sname fields)) hintNames).1
      = ({ name := fieldName, type := some fType, tag := fTag },
         ((coerce pc (tagGet fTag tagName) fType (parseHints fTag hintNames)).1).1, some e) := by
  rcases hc : (coerce pc (tagGet fTag tagName) fType (parseHints fTag hintNames)).1 with ⟨val, err⟩
  rw [hc] at herr
  simp only at herr
  subst herr
  simp [GetFieldTag, isStructKind, hfield, hc]

/-- Witness for C3: an int field whose default tag is "abc" fails Atoi; the
descriptor stays populated and the partial value is the int 0 Atoi
returned. -/
theorem getFieldTag_error_populates_descriptor_witness :
    (GetFieldTag (NewPatchPanel (fun _ _ => none) TokenSeparator KeyValueSeparator)
        "Port" "default"
        (some (.tStruct "S" (.cons "Port" .tInt [("default", "abc")] .nil))) []).1
      = ({ name := "Port", type := some .tInt, tag := [("default", "abc")] },
         .vInt 0, some (.errorsNew "strconv.Atoi: parsing \"abc\": invalid syntax")) :=
  getFieldTag_error_populates_descriptor
    (NewPatchPanel (fun _ _ => none) TokenSeparator KeyValueSeparator)
    "Port" "default" "S" (.cons "Port" .tInt [("default", "abc")] .nil)
    .tInt [("default", "abc")] [] (.errorsNew "strconv.Atoi: parsing \"abc\": invalid syntax")
    (by decide) (by decide)

/-- C7: timestamp coercion on a fresh registry with a `timeFormat` hint whose
string value is outside the layout-name table fails with the "unknown
timeFormat" error and the zero timestamp, for every input string; and
whenever timestamp coercion fails for any reason, the value returned
alongside the error is the zero timestamp. -/
theorem timestamp_unknown_format_and_zero_on_error
    (tp : String → String → Option Int) (tok kv v s : String) (hm : Hints)
    (v2 : String) (hm2 : Hints) (e : GoError)
    (h1 : hintsLookup "timeFormat" hm = some (.vStr s))
    (h2 : tagLookup s timeFormatMap = none)
    (h3 : ((coerce (NewPatchPanel tp tok kv) v2 .tTime hm2).1).2 = some e) :
    (coerce (NewPatchPanel tp tok kv) v .tTime hm).1
      = (.vTime 0, some (.errorsNew "unknown timeFormat provided"))
    ∧ ((coerce (NewPatchPanel tp tok kv) v2 .tTime hm2).1).1 = .vTime 0 := by
  have hcoe : ∀ (vv : String) (hh : Hints),
      (coerce (NewPatchPanel tp tok kv) vv .tTime hh).1 = timeParserFn tp vv hh := by
    intro vv hh; rfl
  constructor
  · rw [hcoe, timeParserFn, h1]
    simp [h2]
  · rw [hcoe] at h3 ⊢
    rw [timeParserFn] at h3 ⊢
    cases hl : hintsLookup "timeFormat" hm2 with
    | none =>
      cases htp : tp goRFC3339 v2 with
      | none => simp [hl, htp]
      | some t => simp [hl, htp] at h3
    | some hv =>
      cases hv with
      | vStr str =>
        cases hfmt : tagLookup str timeFormatMap with
        | none => simp [hl, hfmt]
        | some layout =>
          cases htp : tp layout v2 with
          | none => simp [hl, hfmt, htp]
          | some t => simp [hl, hfmt, htp] at h3
      | vNil => rfl
      | vBool b => rfl
      | vInt n => rfl
      | vDur ns => rfl
      | vTime t => rfl

/-- Witness for C7: the hint value "zzz_unknown" is outside the table, so
coercion of "4:00PM" fails with the unknown-timeFormat error and the zero
timestamp. -/
theorem timestamp_unknown_format_and_zero_on_error_witness :
    (coerce (NewPatchPanel (fun _ _ => none) TokenSeparator KeyValueSeparator) "4:00PM" .tTime
        [("timeFormat", .vStr "zzz_unknown")]).1
      = (.vTime 0, some (.errorsNew "unknown timeFormat provided"))
    ∧ ((coerce (NewPatchPanel (fun _ _ => none) TokenSeparator KeyValueSeparator) "4:00PM" .tTime
        [("timeFormat", .vStr "zzz_unknown")]).1).1 = .vTime 0 :=
  timestamp_unknown_format_and_zero_on_error (fun _ _ => none) TokenSeparator KeyValueSeparator
    "4:00PM" "zzz_unknown" [("timeFormat", .vStr "zzz_unknown")]
    "4:00PM" [("timeFormat", .vStr "zzz_unknown")] (.errorsNew "unknown timeFormat provided")
    (by decide) (by decide) (by decide)

/-- C8: every value a Hint Table holds is a string equal to its own trim
(leading/trailing Unicode whitespace removed), and a hint tag absent from
the field's tag blob yields the empty string, not an error. -/
theorem hint_table_trimmed_and_absent_empty
    (tag : List (String × String)) (hintNames : List String)
    (entry : String × GoVal) (k : String)
    (hmem : entry ∈ parseHints tag hintNames)
    (hk : k ∈ hintNames) (habs : tagLookup k tag = none) :
    (∃ s, entry.2 = GoVal.vStr s ∧ trimSpace s = s)
    ∧ hintsLookup k (parseHints tag hintNames) = some (.vStr "") := by
  constructor
  · exact parseHints_mem_trimmed tag hintNames [] (by simp) entry hmem
  · rw [hintsLookup_parseHints tag hintNames k hk, tagGet_eq_empty_of_none tag k habs]
    rfl

/-- Witness for C8: hint names ["a", "b"] over a tag blob that defines only
"a"; the entry for the absent "b" is the empty string and every stored
value is trimmed. -/
theorem hint_table_trimmed_and_absent_empty_witness :
    (∃ s, (("b", GoVal.vStr "") : String × GoVal).2 = GoVal.vStr s ∧ trimSpace s = s)
    ∧ hintsLookup "b" (parseHints [("a", " x ")] ["a", "b"]) = some (.vStr "") :=
  hint_table_trimmed_and_absent_empty [("a", " x ")] ["a", "b"] ("b", GoVal.vStr "") "b"
    (by decide) (by decide) (by decide)

/-- C9: a timestamp field with no `timeFormat` tag, resolved with
"timeFormat" among the hint tag names, makes timestamp coercion fail with
the "unknown timeFormat" error (the hint table maps "timeFormat" to the
empty string, which is not a layout name) instead of falling back to
RFC 3339; the RFC 3339 fallback happens exactly when "timeFormat" is
absent from the hint map's keys. -/
theorem timeFormat_hint_listed_but_absent_fails
    (tp : String → String → Option Int) (tok kv sname fname tagName : String)
    (fields : GoFields) (fTag : List (String × String)) (hintNames : List String)
    (v3 : String) (hm3 : Hints)
    (hfield : fieldByName (.tStruct sname fields) fname = some (fname, .tTime, fTag))
    (habs : tagLookup "timeFormat" fTag = none)
    (hmem : "timeFormat" ∈ hintNames)
    (habs3 : hintsLookup "timeFormat" hm3 = none) :
    (GetFieldTag (NewPatchPanel tp tok kv) fname tagName
        (some (.tStruct sname fields)) hintNames).1
      = ({ name := fname, type := some .tTime, tag := fTag }, .vTime 0,
          some (.errorsNew "unknown timeFormat provided"))
    ∧ (coerce (NewPatchPanel tp tok kv) v3 .tTime hm3).1
      = (match tp goRFC3339 v3 with
         | some t => (.vTime t, none)
         | none => (.vTime 0, some (.errorsNew (timeParseErrMsg goRFC3339 v3)))) := by
  constructor
  · have hhint : hintsLookup "timeFormat" (parseHints fTag hintNames) = some (.vStr "") := by
      rw [hintsLookup_parseHints fTag hintNames _ hmem, tagGet_eq_empty_of_none _ _ habs]
      rfl
    have hco : (coerce (NewPatchPanel tp tok kv) (tagGet fTag tagName) .tTime
        (parseHints fTag hintNames)).1
        = (.vTime 0, some (.errorsNew "unknown timeFormat provided")) := by
      have hstep : (coerce (NewPatchPanel tp tok kv) (tagGet fTag tagName) .tTime
          (parseHints fTag hintNames)).1
          = timeParserFn tp (tagGet fTag tagName) (parseHints fTag hintNames) := rfl
      rw [hstep, timeParserFn, hhint]
      rfl
    simp [GetFieldTag, isStructKind, hfield, hco]
  · have hstep : (coerce (NewPatchPanel tp tok kv) v3 .tTime hm3).1
        = timeParserFn tp v3 hm3 := rfl
    rw [hstep, timeParserFn, habs3]

/-- Witness for C9: a `time.Time` field tagged only `dest:"4:00PM"`, resolved
with hint names ["timeFormat"], fails with the unknown-timeFormat error;
with no "timeFormat" key in the hint map, coercion follows `time.Parse`
under the RFC 3339 layout. -/
theorem timeFormat_hint_listed_but_absent_fails_witness :
    (GetFieldTag (NewPatchPanel (fun _ _ => none) TokenSeparator KeyValueSeparator)
        "Clock" "dest"
        (some (.tStruct "S" (.cons "Clock" .tTime [("dest", "4:00PM")] .nil)))
        ["timeFormat"]).1
      = ({ name := "Clock", type := some .tTime, tag := [("dest", "4:00PM")] }, .vTime 0,
          some (.errorsNew "unknown timeFormat provided"))
    ∧ (coerce (NewPatchPanel (fun _ _ => none) TokenSeparator KeyValueSeparator)
        "x" .tTime []).1
      = (.vTime 0, some (.errorsNew (timeParseErrMsg goRFC3339 "x"))) :=
  timeFormat_hint_listed_but_absent_fails (fun _ _ => none) TokenSeparator KeyValueSeparator
    "S" "Clock" "dest" (.cons "Clock" .tTime [("dest", "4:00PM")] .nil)
    [("dest", "4:00PM")] ["timeFormat"] "x" []
    (by decide) (by decide) (by decide) (by decide)

end Patchpanel
